import Mathlib

/-!
# Verification of the loki-network crypto core against its specification

This file gives a shallow embedding, in Lean 4, of the cryptographic core of
the repository (`src/llarp/crypto/crypto_libsodium.cpp`) together with the
`RouterContact::Verify` expiry policy (`src/llarp/router_contact.hpp`,
`src/pybind/llarp/router_contact.cpp`), and proves or refutes the frozen
claims about them.

## Modelling conventions

* Fixed-size byte buffers (keys, nonces, hashes) are modelled by their
  little-endian numeric value as a `Nat` (with explicit `% 2^w` where the
  code truncates), or as `List Nat` of byte values where the byte stream
  itself matters (hash inputs).
* The prime-order subgroup shared by curve25519 and edwards25519 is cyclic of
  order `L = 2^252 + 27742317777372353535851937790883648493`.  Points of that
  subgroup are modelled by their discrete logarithm with respect to the base
  point, i.e. by a residue in `[0, L)`; the base point is the residue `1` and
  the identity element is the residue `0`.  Scalar multiplication is
  multiplication mod `L`, point addition is addition mod `L`.  The 32-byte
  encoding of a point is idealized as the little-endian encoding of its
  residue.
* libsodium's scalar-multiplication primitives report failure when the
  result is the identity (all-zero output) or the input point is invalid or
  of small order.  In the prime-order subgroup the only small-order point is
  the identity, and — because `L` is prime (a standard fact about
  edwards25519 which the model builds in rather than re-proving) — the
  product `clamp(s)·P` is the identity precisely when `L ∣ clamp(s)` or `P`
  is the identity.  The model uses that formulation as the failure test.
* BLAKE2b (libsodium's `crypto_generichash_blake2b`) is implemented
  concretely and in full (RFC 7693), including keyed mode and the 32/64 byte
  output lengths used by the code, because several claims turn on the exact
  hashing mode used.
* SHA-512 appears only through the values it produces, so it is left
  abstract: every definition that uses it takes `sha512 : List Nat → Nat`
  (the little-endian value of the 64-byte digest) as an explicit argument.
* `randombytes_buf` outputs are modelled as explicit arguments.
-/

set_option maxRecDepth 2000000

namespace Loki

/-- Order of the prime-order subgroup of curve25519/edwards25519
(the constant `l` of RFC 8032); scalar arithmetic
(`crypto_core_ed25519_scalar_*`) works mod this number. -/
def L : Nat := 2 ^ 252 + 27742317777372353535851937790883648493

/-- `L` is positive. -/
theorem L_pos : 0 < L := by norm_num [L]

instance : NeZero L := ⟨by norm_num [L]⟩

/-! ## Byte-buffer utilities -/

/-- Little-endian byte serialization: the `len` low-order bytes of `n`.
Mirrors how the C code lays fixed-size buffers out in memory. -/
def toBytesLE (len n : Nat) : List Nat :=
  (List.range len).map (fun i => n >>> (8 * i) % 256)

/-- Little-endian byte deserialization (inverse of `toBytesLE`). -/
def fromBytesLE (bs : List Nat) : Nat :=
  bs.foldr (fun b acc => b + 256 * acc) 0

/-- The idealized 32-byte encoding of a subgroup point (see module header):
little-endian bytes of its residue. -/
def pointBytes (P : Nat) : List Nat := toBytesLE 32 P

/-- `htole64buf` from `util/endian.hpp`: the 8 little-endian bytes of a
64-bit integer. -/
def htole64buf (i : Nat) : List Nat := toBytesLE 8 (i % 2 ^ 64)

/-- Ed25519/X25519 scalar clamping, `clamp_ed25519` of
`crypto_libsodium.cpp` (lines 237-243): `out[0] &= 248` clears the three
low bits, `out[31] &= 127; out[31] |= 64` forces the two top bits of the
32-byte little-endian value to `01`.  On the numeric value this keeps bits
3..253 and sets bit 254:  `2^254 + 8 * (n / 8 % 2^251)`. -/
def clamp_ed25519 (n : Nat) : Nat := 2 ^ 254 + 8 * (n / 8 % 2 ^ 251)

/-- The inline clamp of `derive_subkey_private` (lines 336-338):
`h[0] &= 248; h[31] &= 63; h[31] |= 64` — clears the three low bits,
clears the two top bits, then sets bit 254.  Numerically identical to
`clamp_ed25519`. -/
def clamp_subkey (n : Nat) : Nat := 2 ^ 254 + 8 * (n / 8 % 2 ^ 251)

/-- Both clamps in the source compute the same value. -/
theorem clamp_subkey_eq_clamp_ed25519 : clamp_subkey = clamp_ed25519 := rfl

/-- A clamped scalar is never divisible by the group order `L`: it lies in
`[2^254, 2^255)`, is a multiple of 8, and the only multiples of `L` in that
interval are `4L..7L`, none of which is a multiple of 8 since `L` is
odd.  This is why honestly generated keys never produce the identity. -/
theorem clamp_mod_L_ne_zero (n : Nat) : clamp_ed25519 n % L ≠ 0 := by
  intro h
  obtain ⟨k, hk⟩ : L ∣ clamp_ed25519 n := Nat.dvd_of_mod_eq_zero h
  have hmod : n / 8 % 2 ^ 251 < 2 ^ 251 := Nat.mod_lt _ (by norm_num)
  have h8 : clamp_ed25519 n % 8 = 0 := by
    unfold clamp_ed25519
    omega
  have hlo : 2 ^ 254 ≤ clamp_ed25519 n := by
    unfold clamp_ed25519; omega
  have hhi : clamp_ed25519 n < 2 ^ 255 := by
    unfold clamp_ed25519
    omega
  rw [hk] at h8 hlo hhi
  unfold L at h8 hlo hhi
  have hk4 : 4 ≤ k := by nlinarith
  have hk7 : k ≤ 7 := by nlinarith
  interval_cases k <;> omega

/-! ## BLAKE2b (RFC 7693), the hash behind `crypto_generichash_blake2b`

Implemented in full: 64-bit words are `Nat` values reduced `% 2^64`, the
state is a 16-element `List Nat`.  Both the one-shot keyed call
(`crypto_generichash_blake2b(out, outlen, in, inlen, key, keylen)`) and the
streaming `init/update/final` calls of the source compute
`blake2b key msg outlen` below. -/

/-- 64-bit word mask. -/
def w64 : Nat := 2 ^ 64

/-- Rotate a 64-bit word right by `r` bits. -/
def rotr64 (x r : Nat) : Nat := (x >>> r ||| x <<< (64 - r)) % w64

/-- 64-bit xor (on values already below `2^64`). -/
def xor64 (x y : Nat) : Nat := x ^^^ y

/-- BLAKE2b initialization vector (the SHA-512 IV). -/
def blakeIV : List Nat :=
  [0x6a09e667f3bcc908, 0xbb67ae8584caa73b, 0x3c6ef372fe94f82b,
   0xa54ff53a5f1d36f1, 0x510e527fade682d1, 0x9b05688c2b3e6c1f,
   0x1f83d9abfb41bd6b, 0x5be0cd19137e2179]

/-- BLAKE2b message schedule SIGMA (rounds 10 and 11 reuse rows 0 and 1). -/
def blakeSigma : List (List Nat) :=
  [[0, 1, 2, 3, 4, 5, 6, 7, 8, 9, 10, 11, 12, 13, 14, 15],
   [14, 10, 4, 8, 9, 15, 13, 6, 1, 12, 0, 2, 11, 7, 5, 3],
   [11, 8, 12, 0, 5, 2, 15, 13, 10, 14, 3, 6, 7, 1, 9, 4],
   [7, 9, 3, 1, 13, 12, 11, 14, 2, 6, 5, 10, 4, 0, 15, 8],
   [9, 0, 5, 7, 2, 4, 10, 15, 14, 1, 11, 12, 6, 8, 3, 13],
   [2, 12, 6, 10, 0, 11, 8, 3, 4, 13, 7, 5, 15, 14, 1, 9],
   [12, 5, 1, 15, 14, 13, 4, 10, 0, 7, 6, 3, 9, 2, 8, 11],
   [13, 11, 7, 14, 12, 1, 3, 9, 5, 0, 15, 4, 8, 6, 2, 10],
   [6, 15, 14, 9, 11, 3, 0, 8, 12, 2, 13, 7, 1, 4, 10, 5],
   [10, 2, 8, 4, 7, 6, 1, 5, 15, 11, 9, 14, 3, 12, 13, 0],
   [0, 1, 2, 3, 4, 5, 6, 7, 8, 9, 10, 11, 12, 13, 14, 15],
   [14, 10, 4, 8, 9, 15, 13, 6, 1, 12, 0, 2, 11, 7, 5, 3]]

/-- Fetch the `i`-th 64-bit word of a 16-word state. -/
def wget (v : List Nat) (i : Nat) : Nat := v.getD i 0

/-- The BLAKE2b `G` mixing function acting on state positions
`a b c d` with message words `x y`. -/
def blakeG (v : List Nat) (a b c d x y : Nat) : List Nat :=
  let va := (wget v a + wget v b + x) % w64
  let vd := rotr64 (xor64 (wget v d) va) 32
  let vc := (wget v c + vd) % w64
  let vb := rotr64 (xor64 (wget v b) vc) 24
  let va := (va + vb + y) % w64
  let vd := rotr64 (xor64 vd va) 16
  let vc := (vc + vd) % w64
  let vb := rotr64 (xor64 vb vc) 63
  ((((v.set a va).set b vb).set c vc).set d vd)

/-- One BLAKE2b round: eight `G` applications with schedule row `s` over
message block `m`. -/
def blakeRound (m v : List Nat) (s : List Nat) : List Nat :=
  let mg := fun i => wget m (wget s i)
  let v := blakeG v 0 4 8 12 (mg 0) (mg 1)
  let v := blakeG v 1 5 9 13 (mg 2) (mg 3)
  let v := blakeG v 2 6 10 14 (mg 4) (mg 5)
  let v := blakeG v 3 7 11 15 (mg 6) (mg 7)
  let v := blakeG v 0 5 10 15 (mg 8) (mg 9)
  let v := blakeG v 1 6 11 12 (mg 10) (mg 11)
  let v := blakeG v 2 7 8 13 (mg 12) (mg 13)
  blakeG v 3 4 9 14 (mg 14) (mg 15)

/-- The BLAKE2b compression function `F(h, m, t, f)`:
`h` 8 words, `m` 16 message words, `t` byte counter, `last` final-block
flag. -/
def blakeCompress (h m : List Nat) (t : Nat) (last : Bool) : List Nat :=
  let v := h ++ blakeIV
  let v := v.set 12 (xor64 (wget v 12) (t % w64))
  let v := v.set 13 (xor64 (wget v 13) (t / w64 % w64))
  let v := if last then v.set 14 (xor64 (wget v 14) (w64 - 1)) else v
  let v := blakeSigma.foldl (blakeRound m) v
  (List.range 8).map (fun i => xor64 (wget h i) (xor64 (wget v i) (wget v (i + 8))))

/-- Split a byte list into 128-byte chunks (fuel-recursive so that the
kernel can evaluate it; `fuel ≥ length` suffices). -/
def chunks128 : Nat → List Nat → List (List Nat)
  | 0, _ => []
  | _, [] => []
  | fuel + 1, l => l.take 128 :: chunks128 fuel (l.drop 128)

/-- Parse a (≤128)-byte chunk as 16 little-endian 64-bit words, zero
padded. -/
def blockWords (chunk : List Nat) : List Nat :=
  (List.range 16).map (fun i =>
    fromBytesLE ((chunk ++ List.replicate 128 0).drop (8 * i) |>.take 8))

/-- Serialize 64-bit words to little-endian bytes. -/
def wordsToBytes (ws : List Nat) : List Nat :=
  ws.flatMap (fun w => toBytesLE 8 w)

/-- Process the message blocks: every block but the last uses the running
byte counter, the last uses the total length and the finalization flag. -/
def blakeBlocks (h : List Nat) (blocks : List (List Nat)) (done total : Nat) :
    List Nat :=
  match blocks with
  | [] => h
  | [b] => blakeCompress h (blockWords b) total true
  | b :: rest => blakeBlocks (blakeCompress h (blockWords b) (done + 128) false)
      rest (done + 128) total

/-- BLAKE2b with optional key (RFC 7693 / libsodium `crypto_generichash`):
the key, when nonempty, is zero-padded to one 128-byte block prepended to
the message; the parameter block xors `0x01010000 ^ (keylen << 8) ^ outlen`
into `h₀`.  Returns the first `outlen` bytes of the final state. -/
def blake2b (key msg : List Nat) (outlen : Nat) : List Nat :=
  let kk := key.length
  let keyBlock : List Nat := if kk = 0 then [] else key ++ List.replicate (128 - kk) 0
  let input := keyBlock ++ msg
  let total := keyBlock.length + msg.length
  let h0 := blakeIV.set 0 (xor64 (wget blakeIV 0) (0x01010000 ^^^ (kk <<< 8) ^^^ outlen))
  let hFin :=
    match chunks128 (input.length + 1) input with
    | [] => blakeCompress h0 (blockWords []) 0 true
    | bs => blakeBlocks h0 bs 0 total
  (wordsToBytes hFin).take outlen

/-! ## Key types

A C++ `SecretKey` is 64 raw bytes.  For encryption keys
(`encryption_keygen`, lines 397-403) the layout is
`scalar(32) ‖ public(32)`; for identity keys (`seed_to_secretkey`,
lines 350-357) it is `seed(32) ‖ public(32)`.  `toPublic` reads the upper
half (`seckey_topublic`, lines 430-434), the DH and derivation code reads
the lower half. -/

/-- The two 32-byte halves of a C++ `llarp::SecretKey`; `pubHalf` is a
subgroup point (stored by its residue, see the module header). -/
structure SecretKey where
  lowerHalf : Nat
  pubHalf : Nat
  deriving DecidableEq

/-- `SecretKey::toPublic` / `seckey_topublic`: the stored upper 32 bytes. -/
def SecretKey.toPublic (sk : SecretKey) : Nat := sk.pubHalf

/-! ## Key agreement (`crypto_libsodium.cpp` lines 27-145) -/

/-- Model of libsodium's `crypto_scalarmult_curve25519`: clamps the scalar,
multiplies, and reports failure when the output is the all-zero
(identity) point.  In the prime-order subgroup (order `L`, prime) the
product `clamp(n)·P` is the identity exactly when `L ∣ clamp(n)` or `P` is
the identity, which is the test used here (module header). -/
def crypto_scalarmult_curve25519 (n P : Nat) : Option Nat :=
  if clamp_ed25519 n % L = 0 ∨ P % L = 0 then none
  else some (clamp_ed25519 n * P % L)

/-- Model of `crypto_scalarmult_curve25519_base`: `clamp(n)·B`. -/
def crypto_scalarmult_curve25519_base (n : Nat) : Nat := clamp_ed25519 n % L

/-- `encryption_keygen` (lines 397-403) output shape: random lower half,
upper half `= clamp(lower)·B`.  A keypair is *valid* when it has this
shape; this is claim C1's "stored public half derived from the secret
half". -/
def validEncryptionKeypair (sk : SecretKey) : Prop :=
  sk.pubHalf = crypto_scalarmult_curve25519_base sk.lowerHalf

/-- The static `dh` helper (lines 27-44): scalar-multiply the local
secret's lower half with `themPub`, fail on a degenerate result, else
return the unkeyed 32-byte BLAKE2b hash of
`client_pk ‖ server_pk ‖ sharedPoint`. -/
def dh (client_pk server_pk : Nat) (themPub : Nat) (usSec : SecretKey) :
    Option (List Nat) :=
  match crypto_scalarmult_curve25519 usSec.lowerHalf themPub with
  | none => none
  | some shared =>
    some (blake2b [] (pointBytes client_pk ++ pointBytes server_pk ++ pointBytes shared) 32)

/-- `dh_client_priv` (lines 46-60): client-side key agreement; the final
session key is the *keyed* BLAKE2b of the 32 nonce bytes with the raw DH
result as the key. -/
def dh_client_priv (pk : Nat) (sk : SecretKey) (n : Nat) : Option (List Nat) :=
  match dh sk.toPublic pk pk sk with
  | some dh_result => some (blake2b dh_result (toBytesLE 32 n) 32)
  | none => none

/-- `dh_server_priv` (lines 62-75): server-side key agreement; only the
hash-input role of the two public keys differs from the client side. -/
def dh_server_priv (pk : Nat) (sk : SecretKey) (n : Nat) : Option (List Nat) :=
  match dh pk sk.toPublic pk sk with
  | some dh_result => some (blake2b dh_result (toBytesLE 32 n) 32)
  | none => none

/-- `CryptoLibSodium::dh_client` (lines 117-122). -/
def dh_client (pk : Nat) (sk : SecretKey) (n : Nat) : Option (List Nat) :=
  dh_client_priv pk sk n

/-- `CryptoLibSodium::dh_server` (lines 124-129). -/
def dh_server (pk : Nat) (sk : SecretKey) (n : Nat) : Option (List Nat) :=
  dh_server_priv pk sk n

/-- `CryptoLibSodium::transport_dh_client` (lines 131-137). -/
def transport_dh_client (pk : Nat) (sk : SecretKey) (n : Nat) : Option (List Nat) :=
  dh_client_priv pk sk n

/-- `CryptoLibSodium::transport_dh_server` (lines 139-145). -/
def transport_dh_server (pk : Nat) (sk : SecretKey) (n : Nat) : Option (List Nat) :=
  dh_server_priv pk sk n

/-- The final-stage session-key derivation as the specification sentence of
claim C5 literally describes it: the *unkeyed* hash of the nonce
concatenated with the raw shared secret (spec side of a refinement
comparison; the code side is the keyed call inside `dh_client_priv` /
`dh_server_priv`). -/
def finalKey_spec (nonce : Nat) (raw : List Nat) : List Nat :=
  blake2b [] (toBytesLE 32 nonce ++ raw) 32

/-! ## Ed25519 signing with a derived private scalar (lines 172-234)

SHA-512 is abstract throughout: each definition takes
`sha512 : List Nat → Nat`, returning the little-endian value of the
64-byte digest.  The ed25519 scalar primitives
(`crypto_core_ed25519_scalar_reduce/mul/add`) are arithmetic mod `L`. -/

/-- `crypto_core_ed25519_scalar_reduce`: a 64-byte value mod `L`. -/
def ed25519_scalar_reduce (x : Nat) : Nat := x % L

/-- `crypto_core_ed25519_scalar_mul`: product of two scalars mod `L`. -/
def ed25519_scalar_mul (x y : Nat) : Nat := x * y % L

/-- `crypto_core_ed25519_scalar_add`: sum of two scalars mod `L`. -/
def ed25519_scalar_add (x y : Nat) : Nat := (x + y) % L

/-- `crypto_scalarmult_ed25519_base_noclamp`: `s·B` without clamping; in
the residue model simply `s mod L`. -/
def ed25519_scalarmult_base_noclamp (s : Nat) : Nat := s % L

/-- Multiplication of the Ed25519 base point by a scalar (`s·B`), the
mathematical operation the claims refer to; identical to the no-clamp
base multiplication. -/
def scalarmult_base (s : Nat) : Nat := s % L

/-- Point addition in the residue model. -/
def pointAdd (P Q : Nat) : Nat := (P + Q) % L

/-- Unclamped scalar-point multiplication (used by the verifier's
double-scalar multiplication). -/
def pointMul (s P : Nat) : Nat := s * P % L

/-- Modelled from the spec: `PrivateKey::toPublic` (in `crypto/types.cpp`,
which is not under `src/`) — "A = aB - public key": no-clamp base
multiplication of the raw scalar. -/
def privateKey_toPublic (a : Nat) : Nat := ed25519_scalarmult_base_noclamp a

/-- `CryptoLibSodium::sign` with a `PrivateKey` (lines 181-225).  The
32 random bytes drawn by `randombytes_buf` are the explicit argument
`rand`.  Returns the C++ `(bool, Signature)` pair, the signature as its
`(R, S)` halves; the function ends in `return true` with no failing
path. -/
def sign_privatekey (sha512 : List Nat → Nat) (secret : Nat) (rand : Nat)
    (msg : List Nat) : Bool × (Nat × Nat) :=
  let pubkey := privateKey_toPublic secret
  let nonce := ed25519_scalar_reduce (sha512 (toBytesLE 32 rand ++ msg))
  let R := ed25519_scalarmult_base_noclamp nonce
  let hram := ed25519_scalar_reduce (sha512 (pointBytes R ++ pointBytes pubkey ++ msg))
  let mulres := ed25519_scalar_mul hram secret
  let S := ed25519_scalar_add mulres nonce
  (true, (R, S))

/-- Model of libsodium's `crypto_sign_verify_detached`
(`CryptoLibSodium::verify`, lines 227-234): reject a non-canonical `S`
(`sc25519_is_canonical`), a small-order `R` or public key
(`ge25519_has_small_order` / `ge25519_is_canonical`; in the prime-order
subgroup the only small-order point is the identity, residue 0), then
check the equation `S·B = R + Hash(R ‖ A ‖ M)·A`. -/
def crypto_sign_verify_detached (sha512 : List Nat → Nat) (pub : Nat)
    (msg : List Nat) (sig : Nat × Nat) : Bool :=
  let R := sig.1
  let S := sig.2
  if L ≤ S then false
  else if R % L = 0 then false
  else if pub % L = 0 then false
  else
    let hram := ed25519_scalar_reduce (sha512 (pointBytes R ++ pointBytes pub ++ msg))
    ed25519_scalarmult_base_noclamp S == pointAdd R (pointMul hram pub)

/-! ## `crypto_core_ed25519_from_uniform` (libsodium), modelled concretely

`make_scalar` (lines 263-277) feeds the first 32 bytes of a 64-byte hash
to libsodium's `crypto_core_ed25519_from_uniform`, an Elligator-2 *point*
map ("return make_point(n)" in the source's own comment), whose 32-byte
output is a compressed edwards25519 point encoding.  Claim C4 says this
value is a scalar reduction, so the map is implemented concretely here:
field arithmetic over `2^255 - 19`, the Elligator-2 map with `A = 486662`,
point decompression, cofactor clearing by three doublings, and compression
— following libsodium's `ge25519_from_uniform`. -/

/-- The field prime of curve25519/edwards25519. -/
def p25519 : Nat := 2 ^ 255 - 19

/-- Binary modular exponentiation, tail- and fuel-recursive so the kernel
can evaluate it iteratively (`fuel ≥ log₂ e` suffices; 600 covers every
exponent used).  The `b + acc = 0` test only fires when base and
accumulator are both zero (the result is then zero); it is there to keep
the intermediate values forced during kernel reduction. -/
def powModFuel : Nat → Nat → Nat → Nat → Nat → Nat
  | 0, _, _, _, acc => acc
  | fuel + 1, b, e, m, acc =>
    if e = 0 then acc
    else if b + acc = 0 then acc
    else powModFuel fuel (b * b % m) (e / 2) m
      (if e % 2 = 1 then acc * b % m else acc)

/-- `b ^ e mod m` (for the moduli used here, which exceed 1). -/
def powMod (b e m : Nat) : Nat := powModFuel 600 (b % m) e m (1 % m)

/-- `fe25519_invert`: inversion by Fermat (`x^(p-2)`); maps 0 to 0. -/
def fe25519_invert (x : Nat) : Nat := powMod x (p25519 - 2) p25519

/-- `chi25519`: the Legendre symbol computed as `x^((p-1)/2)`. -/
def chi25519 (x : Nat) : Nat := powMod x ((p25519 - 1) / 2) p25519

/-- The Montgomery curve constant `A` of curve25519. -/
def curveA : Nat := 486662

/-- The twisted Edwards constant `d = -121665/121666` of edwards25519. -/
def edD : Nat :=
  37095705934669439343138083508754565189542113879843219016388785533085940283555

/-- `sqrt(-1) mod p`, libsodium's `fe25519_sqrtm1` constant. -/
def sqrtm1 : Nat :=
  19681161376707505956807079304988542015446066515923890162744021073123829784752

/-- `ge25519_frombytes`: decompress a 32-byte encoding into an affine
point `(x, y)` on `-x² + y² = 1 + d·x²·y²`.  Recovers
`x = u·v³·(u·v⁷)^((p-5)/8)` for `u = y² - 1`, `v = d·y² + 1`, multiplies
by `sqrt(-1)` when needed, rejects when neither root works or on a
"negative zero" `x`, and picks the root whose low bit matches the sign
bit. -/
def ge25519_frombytes (s : Nat) : Option (Nat × Nat) :=
  let sign := s >>> 255 % 2
  let y := s % 2 ^ 255 % p25519
  let u := (y * y % p25519 + p25519 - 1) % p25519
  let v := (edD * (y * y % p25519) % p25519 + 1) % p25519
  let v3 := v * v % p25519 * v % p25519
  let uv7 := u * (v3 * v3 % p25519) % p25519 * v % p25519
  let x0 := u * v3 % p25519 * powMod uv7 ((p25519 - 5) / 8) p25519 % p25519
  let vxx := v * (x0 * x0 % p25519) % p25519
  if vxx = u then
    if x0 = 0 ∧ sign = 1 then none
    else some (if x0 % 2 ≠ sign then (p25519 - x0) % p25519 else x0, y)
  else if vxx = (p25519 - u) % p25519 then
    let x1 := x0 * sqrtm1 % p25519
    if x1 = 0 ∧ sign = 1 then none
    else some (if x1 % 2 ≠ sign then (p25519 - x1) % p25519 else x1, y)
  else none

/-- Affine twisted Edwards addition for `a = -1`, `d = edD` (the unified,
complete addition law; agrees with libsodium's extended-coordinate
formulas on all inputs on the curve). -/
def edAdd (P Q : Nat × Nat) : Nat × Nat :=
  let t := edD * P.1 % p25519 * Q.1 % p25519 * P.2 % p25519 * Q.2 % p25519
  let x3 := (P.1 * Q.2 + P.2 * Q.1) % p25519 * fe25519_invert ((1 + t) % p25519) % p25519
  let y3 := (P.2 * Q.2 + P.1 * Q.1) % p25519 * fe25519_invert ((1 + p25519 - t) % p25519) % p25519
  (x3, y3)

/-- Point doubling. -/
def edDouble (P : Nat × Nat) : Nat × Nat := edAdd P P

/-- `ge25519_p3_tobytes`: compress an affine point to 32 bytes — the
`y`-coordinate with the low bit of `x` as bit 255. -/
def ge25519_p3_tobytes (P : Nat × Nat) : Nat := P.2 + (P.1 % 2) <<< 255

/-- libsodium's `crypto_core_ed25519_from_uniform` / `ge25519_from_uniform`:
strip the top bit as the `x`-sign, apply Elligator 2
(`x = -A/(1 + 2r²)`, flipped to `-x - A` when `x³ + Ax² + x` is a
non-residue), convert the Montgomery `x` to an Edwards `y = (x-1)/(x+1)`,
decompress with the recorded sign, clear the cofactor by three doublings,
and compress.  (The decompression cannot fail on Elligator output; the
`none` branch mirrors libsodium's unreachable `abort()`.) -/
def crypto_core_ed25519_from_uniform (r : Nat) : Nat :=
  let s := r % 2 ^ 256
  let xsign := s >>> 255
  let rfe := s % 2 ^ 255 % p25519
  let rr2 := (2 * rfe % p25519 * rfe % p25519 + 1) % p25519
  let x := (p25519 - curveA * fe25519_invert rr2 % p25519) % p25519
  let x2 := x * x % p25519
  let e := chi25519 ((x2 * x % p25519 + curveA * x2 % p25519 + x) % p25519)
  let x := if e = p25519 - 1 then (2 * p25519 - x - curveA) % p25519 else x
  let yed := (x + p25519 - 1) % p25519 * fe25519_invert ((x + 1) % p25519) % p25519
  let sb := yed + xsign <<< 255
  match ge25519_frombytes sb with
  | none => 0
  | some P => ge25519_p3_tobytes (edDouble (edDouble (edDouble P)))

/-! ## Subkey derivation (`crypto_libsodium.cpp` lines 263-348) -/

/-- `make_scalar` (lines 263-277): build `b = htole64(i) ‖ k`, hash it to
the 64-byte `LongHash` `n = H(b)`, then — "return make_point(n)" — feed
the first 32 bytes of `n` to `crypto_core_ed25519_from_uniform`.  (The
streaming hash and `from_uniform` cannot fail, so the C++ `false` branch
is dead; the model is total.) -/
def make_scalar (k : List Nat) (i : Nat) : Nat :=
  let buf := htole64buf i ++ k
  let h := blake2b [] buf 64
  crypto_core_ed25519_from_uniform (fromBytesLE (h.take 32))

/-- The blinding value as claim C4 words it: the 64-byte hash of
`htole64(index) ‖ rootPublicKey` reduced modulo the group order
(spec side of a refinement comparison with `make_scalar`). -/
def make_scalar_spec (k : List Nat) (i : Nat) : Nat :=
  ed25519_scalar_reduce (fromBytesLE (blake2b [] (htole64buf i ++ k) 64))

/-- Model of libsodium's `crypto_scalarmult_ed25519` (clamping variant):
clamps the scalar, rejects small-order/invalid points and an identity
result.  As for the curve25519 variant, in the prime-order subgroup the
failure condition is `L ∣ clamp(n)` or `P` the identity (module
header). -/
def crypto_scalarmult_ed25519 (n P : Nat) : Option Nat :=
  if clamp_ed25519 n % L = 0 ∨ P % L = 0 then none
  else some (clamp_ed25519 n * P % L)

/-- `CryptoLibSodium::derive_subkey` (lines 281-296): `h` is the supplied
override if any, else `make_scalar(rootPublic, n)`; the derived public key
is `crypto_scalarmult_ed25519(h, rootPublic)`. -/
def derive_subkey (root_pubkey : Nat) (key_n : Nat) (hash : Option Nat) :
    Option Nat :=
  let h := match hash with
    | some h0 => h0
    | none => make_scalar (pointBytes root_pubkey) key_n
  crypto_scalarmult_ed25519 h root_pubkey

/-- Modelled from the spec: `SecretKey::toPrivate` (in `crypto/types.cpp`,
which is not under `src/`; the source comment at lines 316-318 describes
it: "If you want to get the private key (i.e. "a"), you need to SHA-512
hash it and then clamp that") — the clamped first 32 bytes of the SHA-512
digest of the 32-byte seed.  It cannot fail. -/
def seckey_toPrivate (sha512 : List Nat → Nat) (sk : SecretKey) : Nat :=
  clamp_ed25519 (sha512 (toBytesLE 32 sk.lowerHalf) % 2 ^ 256)

/-- A valid identity keypair (`seed_to_secretkey` / `identity_keygen`
output shape): the stored public half is the base-point multiple of the
private scalar recovered from the seed. -/
def validIdentityKeypair (sha512 : List Nat → Nat) (sk : SecretKey) : Prop :=
  sk.pubHalf = scalarmult_base (seckey_toPrivate sha512 sk)

/-- `CryptoLibSodium::derive_subkey_private` (lines 298-348): same `h` as
the public variant (from the stored root public key), clamped in place;
the derived private scalar is `h·a mod L` for `a = root.toPrivate()`. -/
def derive_subkey_private (sha512 : List Nat → Nat) (root_key : SecretKey)
    (key_n : Nat) (hash : Option Nat) : Option Nat :=
  let root_pubkey := root_key.toPublic
  let h := match hash with
    | some h0 => h0
    | none => make_scalar (pointBytes root_pubkey) key_n
  let hc := clamp_subkey h
  let a := seckey_toPrivate sha512 root_key
  some (ed25519_scalar_mul hc a)

/-! ## RouterContact verification policy (`src/llarp/router_contact.hpp`,
`src/pybind/llarp/router_contact.cpp`)

Only the declaration of `RouterContact::Verify` is under `src/`
(`bool Verify(llarp_time_t now, bool allowExpired = true) const;`, lines
187-188), together with the field list and the python binding that calls
`rc->Verify(now)` with the flag omitted.  The bodies of `Verify` and
`IsExpired` live in `router_contact.cpp`, which is not under `src/`, so
they are modelled from the spec (§4.2): `IsExpired(now) = Age(now) ≥
Lifetime` with `Age(now) = now - lastUpdated`, and `Verify` performs five
independent rejections — signature over the retained signed section, netID
match, bogon-address policy, and, *unless `allowExpired`*, expiry.  The
three non-time checks depend on data that is out of scope here, so they
enter as explicit boolean-valued parameters `sigOk` and `addrOk` and the
concrete netID comparison; the expiry plumbing, which claim C7 is about,
is modelled exactly. -/

/-- The fields of a `RouterContact` that the verification policy reads
(field list from the header, lines 99-112; times in milliseconds). -/
structure RouterContact where
  netID : Nat
  last_updated : Nat
  deriving DecidableEq

/-- Modelled from the spec: `RouterContact::IsExpired(now)` —
`Age(now) ≥ Lifetime` (`Lifetime` is the process-wide policy constant,
passed explicitly). -/
def RouterContact.IsExpired (lifetime : Nat) (rc : RouterContact) (now : Nat) :
    Bool :=
  lifetime ≤ now - rc.last_updated

/-- The default value of `RouterContact::Verify`'s `allowExpired`
parameter, from the declaration in `router_contact.hpp` line 188. -/
def verifyAllowExpiredDefault : Bool := true

/-- Modelled from the spec: `RouterContact::Verify(now, allowExpired)` —
all checks must pass; expiry is only consulted when `allowExpired` is
false.  `sigOk` abstracts check (1)-(2) (signature over the exact signed
bytes), `addrOk` check (4) (bogon policy); check (3) is the netID
comparison against the deployment's expected identifier. -/
def RouterContact.Verify (sigOk addrOk : RouterContact → Bool)
    (expectedNetID lifetime : Nat) (rc : RouterContact) (now : Nat)
    (allowExpired : Bool) : Bool :=
  sigOk rc && (rc.netID == expectedNetID) && addrOk rc &&
    (allowExpired || !(rc.IsExpired lifetime now))

/-- A call of `Verify` that omits the flag, as C++ overload resolution
elaborates it: the declared default `true` is supplied. -/
def RouterContact.VerifyDefault (sigOk addrOk : RouterContact → Bool)
    (expectedNetID lifetime : Nat) (rc : RouterContact) (now : Nat) : Bool :=
  rc.Verify sigOk addrOk expectedNetID lifetime now verifyAllowExpiredDefault

/-- The python binding's `Verify` lambda
(`src/pybind/llarp/router_contact.cpp` lines 19-22): calls
`rc->Verify(now)` with the flag omitted. -/
def pybind_RouterContact_Verify (sigOk addrOk : RouterContact → Bool)
    (expectedNetID lifetime : Nat) (rc : RouterContact) (now : Nat) : Bool :=
  RouterContact.VerifyDefault sigOk addrOk expectedNetID lifetime rc now

/-! # Theorems for the claims -/

/-- Helper: `crypto_scalarmult_curve25519` applied to an honestly derived
public key succeeds and yields the product of the two clamped scalars. -/
theorem scalarmult_on_base (a b : Nat) :
    crypto_scalarmult_curve25519 a (crypto_scalarmult_curve25519_base b)
      = some (clamp_ed25519 a * clamp_ed25519 b % L) := by
  unfold crypto_scalarmult_curve25519 crypto_scalarmult_curve25519_base
  rw [if_neg]
  · rw [Nat.mul_mod, Nat.mod_mod, ← Nat.mul_mod]
  · push_neg
    exact ⟨clamp_mod_L_ne_zero a, by rw [Nat.mod_mod]; exact clamp_mod_L_ne_zero b⟩

/-- C1: for every pair of encryption keypairs whose stored public halves
are derived from their secret halves and every tunnel nonce, the
client-side and server-side key agreements both succeed and produce the
identical shared secret. -/
theorem dh_client_server_symmetry (A B : SecretKey) (n : Nat)
    (hA : validEncryptionKeypair A) (hB : validEncryptionKeypair B) :
    ∃ k, dh_client B.pubHalf A n = some k ∧ dh_server A.pubHalf B n = some k := by
  unfold validEncryptionKeypair at hA hB
  have h1 : crypto_scalarmult_curve25519 A.lowerHalf B.pubHalf
      = some (clamp_ed25519 A.lowerHalf * clamp_ed25519 B.lowerHalf % L) := by
    rw [hB]; exact scalarmult_on_base _ _
  have h2 : crypto_scalarmult_curve25519 B.lowerHalf A.pubHalf
      = some (clamp_ed25519 A.lowerHalf * clamp_ed25519 B.lowerHalf % L) := by
    rw [hA, scalarmult_on_base, Nat.mul_comm]
  refine ⟨blake2b (blake2b [] (pointBytes A.pubHalf ++ pointBytes B.pubHalf ++
      pointBytes (clamp_ed25519 A.lowerHalf * clamp_ed25519 B.lowerHalf % L)) 32)
      (toBytesLE 32 n) 32, ?_, ?_⟩
  · unfold dh_client dh_client_priv dh SecretKey.toPublic
    rw [h1]
  · unfold dh_server dh_server_priv dh SecretKey.toPublic
    rw [h2]

/-- Witness for C1 at a concrete pair of honestly generated keypairs. -/
theorem dh_client_server_symmetry_witness :
    validEncryptionKeypair ⟨0, crypto_scalarmult_curve25519_base 0⟩ ∧
    validEncryptionKeypair ⟨1, crypto_scalarmult_curve25519_base 1⟩ ∧
    ∃ k, dh_client (crypto_scalarmult_curve25519_base 1)
          ⟨0, crypto_scalarmult_curve25519_base 0⟩ 7 = some k ∧
        dh_server (crypto_scalarmult_curve25519_base 0)
          ⟨1, crypto_scalarmult_curve25519_base 1⟩ 7 = some k :=
  ⟨by unfold validEncryptionKeypair; rfl, by unfold validEncryptionKeypair; rfl,
    dh_client_server_symmetry ⟨0, crypto_scalarmult_curve25519_base 0⟩
      ⟨1, crypto_scalarmult_curve25519_base 1⟩ 7
      (by unfold validEncryptionKeypair; rfl) (by unfold validEncryptionKeypair; rfl)⟩

/-- C6: when the scalar multiplication yields the degenerate identity
point (small-order or invalid peer key), every key-agreement entry point
fails and produces no output. -/
theorem dh_degenerate_fails (pk : Nat) (sk : SecretKey) (n cpk spk : Nat)
    (hdeg : clamp_ed25519 sk.lowerHalf % L = 0 ∨ pk % L = 0) :
    dh cpk spk pk sk = none ∧ dh_client pk sk n = none ∧
    dh_server pk sk n = none ∧ transport_dh_client pk sk n = none ∧
    transport_dh_server pk sk n = none := by
  have hfail : crypto_scalarmult_curve25519 sk.lowerHalf pk = none := by
    unfold crypto_scalarmult_curve25519
    exact if_pos hdeg
  unfold transport_dh_client transport_dh_server dh_client dh_server
    dh_client_priv dh_server_priv dh
  rw [hfail]
  exact ⟨rfl, rfl, rfl, rfl, rfl⟩

/-- Witness for C6: the identity peer public key. -/
theorem dh_degenerate_fails_witness :
    (clamp_ed25519 (SecretKey.lowerHalf ⟨5, 9⟩) % L = 0 ∨ (0 : Nat) % L = 0) ∧
    dh 1 2 0 ⟨5, 9⟩ = none ∧ dh_client 0 ⟨5, 9⟩ 3 = none ∧
    dh_server 0 ⟨5, 9⟩ 3 = none ∧ transport_dh_client 0 ⟨5, 9⟩ 3 = none ∧
    transport_dh_server 0 ⟨5, 9⟩ 3 = none :=
  ⟨Or.inr (Nat.zero_mod L), dh_degenerate_fails 0 ⟨5, 9⟩ 3 1 2 (Or.inr (Nat.zero_mod L))⟩

/-- C10: the path-role and transport-role key agreements are the same
function (each pair delegates to the same private helper). -/
theorem dh_path_equals_transport (pk : Nat) (sk : SecretKey) (n : Nat) :
    dh_client pk sk n = transport_dh_client pk sk n ∧
    dh_server pk sk n = transport_dh_server pk sk n :=
  ⟨rfl, rfl⟩

/-- C9: the derived-key signing overload reports success unconditionally:
its boolean result is `true` for every scalar, randomness and message. -/
theorem sign_privatekey_always_succeeds (sha512 : List Nat → Nat)
    (secret rand : Nat) (msg : List Nat) :
    (sign_privatekey sha512 secret rand msg).1 = true :=
  rfl

/-- C5 (counterexample): at a concrete secret key, peer key and nonce the
key agreement succeeds, yet the final session key is *not* the unkeyed
hash of `nonce ‖ rawSharedSecret` claimed by the spec — the code computes
a keyed hash with the raw secret as the key and the nonce as message. -/
theorem session_key_not_unkeyed_hash :
    dh ((⟨0, 1⟩ : SecretKey).toPublic) 1 1 ⟨0, 1⟩ =
      some (blake2b [] (pointBytes 1 ++ pointBytes 1 ++
        pointBytes (clamp_ed25519 0 * (1 % L) % L)) 32) ∧
    dh_client_priv 1 ⟨0, 1⟩ 0 ≠
      some (finalKey_spec 0 (blake2b [] (pointBytes 1 ++ pointBytes 1 ++
        pointBytes (clamp_ed25519 0 * (1 % L) % L)) 32)) :=
  ⟨by decide, by decide⟩

/-- C5 (amended): for every secret key, peer key and nonce for which the
key agreement succeeds with raw shared secret `raw`, the final session key
written to the caller is the *keyed* hash `blake2b(key = raw, msg =
nonce)` — in both the client-side and the server-side variant. -/
theorem session_key_is_keyed_hash (pk n : Nat) (sk : SecretKey)
    (rawc raws : List Nat)
    (hc : dh sk.toPublic pk pk sk = some rawc)
    (hs : dh pk sk.toPublic pk sk = some raws) :
    dh_client_priv pk sk n = some (blake2b rawc (toBytesLE 32 n) 32) ∧
    dh_server_priv pk sk n = some (blake2b raws (toBytesLE 32 n) 32) := by
  constructor
  · unfold dh_client_priv
    rw [hc]
  · unfold dh_server_priv
    rw [hs]

/-- Witness for C5's amended statement at a concrete instance. -/
theorem session_key_is_keyed_hash_witness :
    dh ((⟨0, 1⟩ : SecretKey).toPublic) 1 1 ⟨0, 1⟩ =
      some (blake2b [] (pointBytes 1 ++ pointBytes 1 ++
        pointBytes (clamp_ed25519 0 * (1 % L) % L)) 32) ∧
    dh_client_priv 1 ⟨0, 1⟩ 0 =
      some (blake2b (blake2b [] (pointBytes 1 ++ pointBytes 1 ++
        pointBytes (clamp_ed25519 0 * (1 % L) % L)) 32) (toBytesLE 32 0) 32) :=
  ⟨by decide,
    (session_key_is_keyed_hash 1 0 ⟨0, 1⟩
      (blake2b [] (pointBytes 1 ++ pointBytes 1 ++
        pointBytes (clamp_ed25519 0 * (1 % L) % L)) 32)
      (blake2b [] (pointBytes 1 ++ pointBytes 1 ++
        pointBytes (clamp_ed25519 0 * (1 % L) % L)) 32)
      (by decide) (by decide)).1⟩

/-- C2 (counterexample): the claim that a derived-key signature is always
accepted by the verifier fails when the reduced nonce scalar is zero: with
the all-zero hash instance, the scalar actually produced by
`derive_subkey_private` at a concrete root key and index 0, randomness 0
and the empty message, `R = 0·B` is the identity and
`crypto_sign_verify_detached` rejects it as a small-order point. -/
theorem sign_privatekey_not_always_verified :
    derive_subkey_private (fun _ => 0) ⟨0, clamp_ed25519 0 % L⟩ 0 none =
      some (ed25519_scalar_mul
        (clamp_subkey (make_scalar (pointBytes (clamp_ed25519 0 % L)) 0))
        (seckey_toPrivate (fun _ => 0) ⟨0, clamp_ed25519 0 % L⟩)) ∧
    crypto_sign_verify_detached (fun _ => 0)
      (privateKey_toPublic (ed25519_scalar_mul
        (clamp_subkey (make_scalar (pointBytes (clamp_ed25519 0 % L)) 0))
        (seckey_toPrivate (fun _ => 0) ⟨0, clamp_ed25519 0 % L⟩))) []
      ((sign_privatekey (fun _ => 0)
        (ed25519_scalar_mul
          (clamp_subkey (make_scalar (pointBytes (clamp_ed25519 0 % L)) 0))
          (seckey_toPrivate (fun _ => 0) ⟨0, clamp_ed25519 0 % L⟩)) 0 []).2)
      = false :=
  ⟨rfl, by decide⟩

/-- Helper: the mod-`m` arithmetic identity matching the signer's
`S = (c·a mod m) + r mod m` against the verifier's
`r + c·(a mod m) mod m`. -/
theorem verify_arith (c a r m : Nat) :
    (c * a % m + r) % m = (r + c * (a % m) % m) % m := by
  rw [Nat.add_comm]
  congr 1
  conv_rhs => rw [Nat.mul_mod, Nat.mod_mod, ← Nat.mul_mod]

/-- C2 (amended): for every scalar `a` that is nonzero mod the group order
and every message and randomness whose nonce hash does not reduce to zero
(all but a `≈ 2^-253` fraction), the derived-key signer outputs
`R = r·B` and `S = r + Hash(R ‖ A ‖ M)·a mod L`, and the standard
Ed25519 detached verifier accepts the signature given only `A = a·B`. -/
theorem sign_privatekey_verifies (sha512 : List Nat → Nat)
    (secret rand : Nat) (msg : List Nat)
    (hA : secret % L ≠ 0)
    (hr : sha512 (toBytesLE 32 rand ++ msg) % L ≠ 0) :
    (sign_privatekey sha512 secret rand msg).2.1 =
      ed25519_scalarmult_base_noclamp
        (ed25519_scalar_reduce (sha512 (toBytesLE 32 rand ++ msg))) ∧
    (sign_privatekey sha512 secret rand msg).2.2 =
      (ed25519_scalar_reduce (sha512 (toBytesLE 32 rand ++ msg)) +
        ed25519_scalar_reduce (sha512
          (pointBytes (sign_privatekey sha512 secret rand msg).2.1 ++
           pointBytes (privateKey_toPublic secret) ++ msg)) * secret) % L ∧
    crypto_sign_verify_detached sha512 (privateKey_toPublic secret) msg
      (sign_privatekey sha512 secret rand msg).2 = true := by
  refine ⟨?_, ?_, ?_⟩
  · unfold sign_privatekey ed25519_scalarmult_base_noclamp ed25519_scalar_reduce
    simp [Nat.mod_mod]
  · unfold sign_privatekey ed25519_scalar_add ed25519_scalar_mul
      ed25519_scalar_reduce ed25519_scalarmult_base_noclamp
    simp only [Nat.mod_mod]
    conv_lhs => rw [Nat.add_mod, Nat.mod_mod, ← Nat.add_mod]
    rw [Nat.add_comm]
  · simp only [sign_privatekey, crypto_sign_verify_detached, ed25519_scalar_add,
      ed25519_scalar_mul, ed25519_scalar_reduce, ed25519_scalarmult_base_noclamp,
      privateKey_toPublic, pointAdd, pointMul, Nat.mod_mod]
    rw [if_neg (Nat.not_le.mpr (Nat.mod_lt _ L_pos)), if_neg hr, if_neg hA,
      beq_iff_eq]
    exact verify_arith _ secret _ L

/-- Witness for C2's amended statement: the identity hash instance, scalar
1, randomness 1 and message `[2]` satisfy both nondegeneracy hypotheses. -/
theorem sign_privatekey_verifies_witness :
    (1 : Nat) % L ≠ 0 ∧
    (fun (_ : List Nat) => 1) (toBytesLE 32 1 ++ [2]) % L ≠ 0 ∧
    crypto_sign_verify_detached (fun _ => 1) (privateKey_toPublic 1) [2]
      (sign_privatekey (fun _ => 1) 1 1 [2]).2 = true :=
  ⟨by decide, by decide,
    (sign_privatekey_verifies (fun _ => 1) 1 1 [2] (by decide) (by decide)).2.2⟩

/-- C3: for every valid root identity key (public half matching its seed)
and every index, the derived public key is exactly the base-point multiple
of the derived private scalar. -/
theorem derive_subkey_consistency (sha512 : List Nat → Nat)
    (root : SecretKey) (n : Nat)
    (hroot : validIdentityKeypair sha512 root) :
    ∃ s, derive_subkey_private sha512 root n none = some s ∧
      derive_subkey root.pubHalf n none = some (scalarmult_base s) := by
  unfold validIdentityKeypair scalarmult_base at hroot
  refine ⟨ed25519_scalar_mul
    (clamp_subkey (make_scalar (pointBytes root.pubHalf) n))
    (seckey_toPrivate sha512 root), ?_, ?_⟩
  · rfl
  · unfold derive_subkey crypto_scalarmult_ed25519
    rw [if_neg]
    · unfold scalarmult_base ed25519_scalar_mul
      rw [clamp_subkey_eq_clamp_ed25519, Nat.mod_mod, hroot]
      conv_lhs => rw [Nat.mul_mod, Nat.mod_mod, ← Nat.mul_mod]
    · push_neg
      refine ⟨clamp_mod_L_ne_zero _, ?_⟩
      rw [hroot]
      unfold seckey_toPrivate
      rw [Nat.mod_mod]
      exact clamp_mod_L_ne_zero _

/-- Witness for C3 at a concrete root key (with the all-zero hash
instance standing in for SHA-512). -/
theorem derive_subkey_consistency_witness :
    validIdentityKeypair (fun _ => 0) ⟨0, clamp_ed25519 0 % L⟩ ∧
    ∃ s, derive_subkey_private (fun _ => 0) ⟨0, clamp_ed25519 0 % L⟩ 4 none = some s ∧
      derive_subkey (clamp_ed25519 0 % L) 4 none = some (scalarmult_base s) :=
  ⟨by unfold validIdentityKeypair scalarmult_base seckey_toPrivate; rfl,
    derive_subkey_consistency (fun _ => 0) ⟨0, clamp_ed25519 0 % L⟩ 4
      (by unfold validIdentityKeypair scalarmult_base seckey_toPrivate; rfl)⟩

/-- C4 (counterexample): at the concrete root public key `1` and index
`0`, the blinding value which the code computes (`make_scalar`, i.e.
`crypto_core_ed25519_from_uniform` of the first 32 hash bytes) is not the
hash reduced modulo the group order as the claim states. -/
theorem make_scalar_not_scalar_reduce :
    make_scalar (pointBytes 1) 0 ≠ make_scalar_spec (pointBytes 1) 0 := by
  decide

/-- C4 (amended): with no override, both derivation variants obtain their
blinding value as `h = FromUniform(first 32 bytes of Hash64(le64(index) ‖
rootPublic))` — libsodium's Elligator-2 point map, not a scalar
reduction — and the public derivation then returns `clamp(h)·rootPublic`
(the scalar multiplication clamps), succeeding whenever the root key is
not the identity. -/
theorem derive_subkey_blinding (root n : Nat) (sha512 : List Nat → Nat)
    (sk : SecretKey) (hroot : root % L ≠ 0) :
    make_scalar (pointBytes root) n =
      crypto_core_ed25519_from_uniform
        (fromBytesLE ((blake2b [] (htole64buf n ++ pointBytes root) 64).take 32)) ∧
    derive_subkey root n none =
      some (clamp_ed25519 (make_scalar (pointBytes root) n) * root % L) ∧
    derive_subkey_private sha512 sk n none =
      some (ed25519_scalar_mul
        (clamp_subkey (make_scalar (pointBytes sk.pubHalf) n))
        (seckey_toPrivate sha512 sk)) := by
  refine ⟨rfl, ?_, ?_⟩
  · unfold derive_subkey crypto_scalarmult_ed25519
    rw [if_neg]
    push_neg
    exact ⟨clamp_mod_L_ne_zero _, hroot⟩
  · rfl

/-- Witness for C4's amended statement at root public key `1`, index `0`. -/
theorem derive_subkey_blinding_witness :
    (1 : Nat) % L ≠ 0 ∧
    derive_subkey 1 0 none =
      some (clamp_ed25519 (make_scalar (pointBytes 1) 0) * 1 % L) :=
  ⟨by decide, (derive_subkey_blinding 1 0 (fun _ => 0) ⟨0, 0⟩ (by decide)).2.1⟩

/-- C8: when a precomputed scalar override is supplied, both derivation
variants ignore the index argument entirely. -/
theorem derive_subkey_override_ignores_index (root h i j : Nat)
    (sha512 : List Nat → Nat) (sk : SecretKey) :
    derive_subkey root i (some h) = derive_subkey root j (some h) ∧
    derive_subkey_private sha512 sk i (some h) =
      derive_subkey_private sha512 sk j (some h) :=
  ⟨rfl, rfl⟩

/-- C7: `Verify`'s `allowExpired` flag defaults to `true`; a call that
omits the flag (as the python binding does) never rejects for expiry —
the outcome is exactly the three non-time checks — while passing
`allowExpired = false` additionally requires the RC not to be expired. -/
theorem verify_default_allows_expired (sigOk addrOk : RouterContact → Bool)
    (expectedNetID lifetime : Nat) (rc : RouterContact) (now : Nat) :
    verifyAllowExpiredDefault = true ∧
    pybind_RouterContact_Verify sigOk addrOk expectedNetID lifetime rc now
      = RouterContact.Verify sigOk addrOk expectedNetID lifetime rc now true ∧
    RouterContact.VerifyDefault sigOk addrOk expectedNetID lifetime rc now
      = (sigOk rc && (rc.netID == expectedNetID) && addrOk rc) ∧
    RouterContact.Verify sigOk addrOk expectedNetID lifetime rc now false
      = (sigOk rc && (rc.netID == expectedNetID) && addrOk rc &&
          !(rc.IsExpired lifetime now)) := by
  refine ⟨rfl, rfl, ?_, rfl⟩
  unfold RouterContact.VerifyDefault RouterContact.Verify verifyAllowExpiredDefault
  simp
